import Mathlib

/-!
Verification of the nutclient repository (a Go client for the NUT
power-management protocol) against its natural-language specification.

The development shallowly embeds the protocol codec (`split`, `parseLine`,
`trimPrefix`, `nutConn.send` / `runGet` / `runList`), the monitor's default
status predicate (`runEvaluateStatusFn`), the serving loop of `Client.loop`
(as a trace function over its select events) and the lifecycle of
`Client.run` / `Client.lifecycle` (as a step function on phases).

Strings are modelled with Lean `String` (logically a list of `Char`);
the protocol data is ASCII, so Go's byte-wise operations coincide with
the character-wise model.
-/

namespace Nutclient

/-- Mirrors `isSpace` of the tokenizer: only space and tab count
(`b == ' ' || b == '\t'`). -/
def isSpace (b : Char) : Bool :=
  b == ' ' || b == '\t'

/-- ASCII lower-casing of one character, as `strings.ToLower` /
`strings.EqualFold` behave on the ASCII protocol keywords. -/
def toLowerChar (c : Char) : Char :=
  if 'A' ≤ c ∧ c ≤ 'Z' then Char.ofNat (c.toNat + 32) else c

/-- Mirrors `strings.ToLower` on ASCII input. -/
def lower (s : String) : String :=
  ⟨s.data.map toLowerChar⟩

/-- Mirrors `strings.EqualFold` on ASCII input: case-insensitive equality. -/
def eqFold (a b : String) : Bool :=
  lower a == lower b

/-- Length of the maximal leading run of characters satisfying `p`
(the `for ; i < len(data) && p(data[i]); i++` skipping loops of `split`). -/
def countLeading (p : Char → Bool) : List Char → Nat
  | [] => 0
  | c :: cs => if p c then countLeading p cs + 1 else 0

/-- The terminator search of `split`'s token-reading loop: offset of the
first terminator character (a closing `"` when inside a quote, whitespace
otherwise), or `none` when the buffer ends first. -/
def findEnd (isQuote : Bool) : List Char → Option Nat
  | [] => none
  | c :: cs =>
    if (isQuote && c == '"') || (!isQuote && isSpace c) then some 0
    else (findEnd isQuote cs).map (· + 1)

/-- Result of one `split` call: how far to advance, the token produced (if
any), whether `bufio.ErrFinalToken` was signalled, and whether the
unterminated-quote error (`errMissingEndQuote`) was signalled. -/
structure SplitOut where
  advance : Nat
  token : Option (List Char)
  isFinal : Bool
  isErr : Bool
  deriving Repr, DecidableEq

/-- The tokenizer `split(data, atEOF)` of the wire codec. It skips leading
whitespace, consumes an opening `"` (entering quote mode), scans for the
token terminator, and then:
- terminator found: return the token (the quotes are not part of it);
- no terminator, more input may arrive: request more data, advancing past
  what was already skipped;
- no terminator at EOF inside a quote: the unterminated-quote error;
- no terminator at EOF with a non-empty plain token: return it;
- nothing left at EOF: `bufio.ErrFinalToken` (end of line, no token).

The leading-quote handling mirrors the Go loop exactly: the branch
`end == start && data[end] == '"'` consumes a maximal run of leading
quote characters, entering quote mode if the run is non-empty. -/
def split (data : List Char) (atEOF : Bool) : SplitOut :=
  let ws := countLeading isSpace data
  let rest := data.drop ws
  let q := countLeading (fun c => c == '"') rest
  let isQuote : Bool := q != 0
  let start := ws + q
  let body := data.drop start
  match findEnd isQuote body with
  | some e =>
    { advance := if isQuote then start + e + 1 else start + e
      token := some (body.take e)
      isFinal := false
      isErr := false }
  | none =>
    if atEOF then
      if isQuote then
        { advance := 0, token := none, isFinal := false, isErr := true }
      else if body.isEmpty then
        { advance := 0, token := none, isFinal := true, isErr := false }
      else
        { advance := data.length, token := some body, isFinal := false, isErr := false }
    else
      { advance := start, token := none, isFinal := false, isErr := false }

/-- Drives `split` to the end of a fully-available input (`atEOF = true`
at every call, i.e. the claim's "no further input" condition), collecting
the tokens in order. Returns the tokens produced before stopping together
with a flag telling whether the unterminated-quote error was signalled.
The fuel argument only bounds the recursion; `tokenize` supplies enough. -/
def tokenizeAux : Nat → List Char → List (List Char) → List (List Char) × Bool
  | 0, _, acc => (acc.reverse, false)
  | fuel + 1, data, acc =>
    let r := split data true
    if r.isErr then (acc.reverse, true)
    else if r.isFinal then (acc.reverse, false)
    else
      match r.token with
      | some t => tokenizeAux fuel (data.drop r.advance) (t :: acc)
      | none => (acc.reverse, false)

/-- Tokenize a whole line: the token sequence and whether the
unterminated-quote error occurred. -/
def tokenize (s : String) : List String × Bool :=
  let (ts, e) := tokenizeAux (s.data.length + 1) s.data []
  (ts.map (fun t => ⟨t⟩), e)

/-- The error taxonomy surfaced by the codec, mirroring the `errors.New` /
`fmt.Errorf` values of the source. `prefixExpected ps` is
`fmt.Errorf("%s expected", strings.Join(prefixes, " "))` — it names the
expected prefix sequence. `serverErr r` is
`fmt.Errorf("server returned %s", l[1])`. `eof` stands for the scanner
failing to produce a further line. -/
inductive NutErr where
  | missingEndQuote
  | missingValue
  | unexpectedEOF
  | eof
  | serverErr (reason : String)
  | prefixExpected (expected : List String)
  deriving Repr, DecidableEq

instance {ε α : Type} [DecidableEq ε] [DecidableEq α] : DecidableEq (Except ε α) := fun a b =>
  match a, b with
  | .ok x, .ok y =>
    if h : x = y then .isTrue (by rw [h]) else .isFalse (by intro he; cases he; exact h rfl)
  | .error x, .error y =>
    if h : x = y then .isTrue (by rw [h]) else .isFalse (by intro he; cases he; exact h rfl)
  | .ok _, .error _ => .isFalse (by intro h; cases h)
  | .error _, .ok _ => .isFalse (by intro h; cases h)

/-- Mirrors `parseLine`: scan all tokens of the line; a scanner error
(the unterminated quote) is returned as-is, an empty token list is
`errMissingValue`, otherwise the tokens. -/
def parseLine (v : String) : Except NutErr (List String) :=
  let (ts, e) := tokenize v
  if e then .error .missingEndQuote
  else if ts.isEmpty then .error .missingValue
  else .ok ts

/-- The matching loop of `trimPrefix`: strips `prefixes` from the front of
`v` by case-insensitive comparison (`strings.EqualFold`); `none` when `v`
is too short or some position mismatches. -/
def trimPrefixAux : List String → List String → Option (List String)
  | v, [] => some v
  | [], _ :: _ => none
  | x :: xs, p :: ps => if eqFold x p then trimPrefixAux xs ps else none

/-- Mirrors `trimPrefix(v, prefixes)`: a reply shorter than the prefix, or
any case-insensitive mismatch, yields the `"<prefixes> expected"` error;
otherwise the tokens after the prefix. -/
def trimPrefix (v prefixes : List String) : Except NutErr (List String) :=
  match trimPrefixAux v prefixes with
  | some r => .ok r
  | none => .error (.prefixExpected prefixes)

/-- The reply classification inside `nutConn.send`:
`len(l) >= 2 && strings.ToLower(l[0]) == "err"` makes the reply a server
error whose reason is `l[1]` (the second token only). Returns the reason
when the reply is a server error, `none` otherwise. -/
def classifyReply : List String → Option String
  | a :: b :: _ => if lower a == "err" then some b else none
  | _ => none

/-- Mirrors `nutConn.send(cmd, v)` as a pure function of the command
arguments and the list of reply lines the server will deliver. The socket
write is not observable here; the function returns the parsed argument
prefixes, the first reply line's tokens, and the remaining input, or the
error `send` returns. A missing reply line is the failed `scanner.Scan`. -/
def send (_cmd v : String) (input : List String) : Except NutErr ((List String × List String) × List String) := do
  let prefixes ← parseLine v
  match input with
  | [] => .error .eof
  | line :: rest => do
    let l ← parseLine line
    match classifyReply l with
    | some reason => .error (.serverErr reason)
    | none => .ok ((prefixes, l), rest)

/-- Mirrors `nutConn.runGet(v)`: send `GET v`, strip the echoed prefixes
from the reply, fail with `errMissingValue` when nothing remains, and
return the first remaining token. -/
def runGet (v : String) (input : List String) : Except NutErr String := do
  let ((prefixes, l), _) ← send "GET" v input
  let t ← trimPrefix l prefixes
  match t with
  | [] => .error .missingValue
  | x :: _ => .ok x

/-- The row-collecting loop of `nutConn.runList`: read lines until one
starts with `end` (case-insensitively), strip `prefixes` from every row,
check the terminator line against `END LIST <prefixes>`, and return the
rows in order. Running out of lines is `errUnexpectedEOF`. -/
def listLoop (prefixes : List String) : List String → Except NutErr (List (List String))
  | [] => .error .unexpectedEOF
  | line :: rest => do
    let l ← parseLine line
    if lower (l.headD "") == "end" then do
      let _ ← trimPrefix l ("end" :: "list" :: prefixes)
      .ok []
    else do
      let t ← trimPrefix l prefixes
      let vs ← listLoop prefixes rest
      .ok (t :: vs)

/-- Mirrors `nutConn.runList(v)`: send `LIST v`, check the first reply
line against `BEGIN LIST <prefixes>`, then collect the rows. -/
def runList (v : String) (input : List String) : Except NutErr (List (List String)) := do
  let ((prefixes, l), rest) ← send "LIST" v input
  let _ ← trimPrefix l ("begin" :: "list" :: prefixes)
  listLoop prefixes rest

/-- Space-joined tokens, as the wire protocol writes them. -/
def joinSp (ts : List String) : String :=
  String.intercalate " " ts

/-- Modelled from the spec: the server-side encoding of a list reply is
absent from the client source; §6 gives it as a `BEGIN LIST <prefix tokens>`
line, one line per row, terminated by `END LIST <prefix tokens>`, where
(per the glossary) the prefix tokens are the echoed portion of the request
that the server repeats at the start of each reply line, followed on row
lines by the row's own tokens. -/
def encodeList (prefixes : List String) (rows : List (List String)) : List String :=
  ("BEGIN LIST " ++ joinSp prefixes) ::
    (rows.map (fun r => joinSp (prefixes ++ r)) ++ ["END LIST " ++ joinSp prefixes])

/-- Mirrors Go `strings.Split(v, " ")` on a character list: split on every
single space, keeping empty fields; the empty input yields one empty
field. -/
def goSplitSpace : List Char → List (List Char)
  | [] => [[]]
  | c :: cs =>
    match goSplitSpace cs with
    | f :: rest => if c == ' ' then [] :: f :: rest else (c :: f) :: rest
    | [] => [[]]

/-- Mirrors `strings.Split(v, " ")` on strings. -/
def stringsSplitSpace (v : String) : List String :=
  (goSplitSpace v.data).map (fun f => ⟨f⟩)

/-- The loop body of the default status evaluation: report on-battery
(`true`) unless some field equals `"OL"` exactly
(`for _, p := range strings.Split(v, " ") { if p == "OL" { return false } }`).
-/
def evaluateStatusLoop : List String → Bool
  | [] => true
  | p :: ps => if p == "OL" then false else evaluateStatusLoop ps

/-- The fields of `monitor.Config` relevant to status evaluation:
`EvaluateStatusFn` is `nil` (`none`) when the caller did not set the
callback. The remaining fields of the Go struct (address, name, intervals,
event callbacks) do not enter `runEvaluateStatusFn` and are omitted. -/
structure MonitorConfig where
  evaluateStatusFn : Option (String → Bool)

/-- Mirrors `Config.runEvaluateStatusFn` of `monitor/config.go`: use the
configured callback when set, otherwise the default split-and-compare
algorithm. -/
def runEvaluateStatusFn (c : MonitorConfig) (v : String) : Bool :=
  match c.evaluateStatusFn with
  | some f => f v
  | none => evaluateStatusLoop (stringsSplitSpace v)

/-! ### The serving loop of `Client.loop` as a trace function

`Client.loop` is one goroutine: each `select` arm runs `runCommand` to
completion (and delivers the response) before the next iteration can
start another. The trace function below makes the Connection-level
activity observable: each handled request or keep-alive tick contributes
a `sendStart`/`sendEnd` pair (the instrumentation of the Connection the
spec describes) and, for a caller request, the `respond` delivering its
response. An error from the command ends the loop (`return err`), as
does the shutdown signal. -/

/-- One event received by the `select` of `Client.loop`: a caller request
(tagged with an index, with the success of its Connection-level send), a
keep-alive tick (with the success of its no-op command), or the shutdown
signal. -/
inductive LoopEv where
  | request (idx : Nat) (ok : Bool)
  | keepAlive (ok : Bool)
  | shutdown
  deriving Repr, DecidableEq

/-- An entry of the instrumented Connection trace. -/
inductive Tr where
  | sendStart
  | sendEnd
  | respond (idx : Nat)
  deriving Repr, DecidableEq

/-- The trace `Client.loop` produces on a sequence of select events: each
request runs one complete send and then delivers its response (the
response is sent on `responseChan` before the error check); a failed
command makes the loop return; shutdown stops it without further sends. -/
def loopTrace : List LoopEv → List Tr
  | [] => []
  | .request i ok :: rest =>
    .sendStart :: .sendEnd :: .respond i :: (if ok then loopTrace rest else [])
  | .keepAlive ok :: rest =>
    .sendStart :: .sendEnd :: (if ok then loopTrace rest else [])
  | .shutdown :: _ => []

/-- Serial-trace check: scanning left to right with a flag telling whether
a send is currently open, no send may start while another is open, and no
send may end without one open. `serialChk t false = true` says the sends
of `t` do not overlap. -/
def serialChk : List Tr → Bool → Bool
  | [], _ => true
  | .sendStart :: t, false => serialChk t true
  | .sendStart :: _, true => false
  | .sendEnd :: t, true => serialChk t false
  | .sendEnd :: _, false => false
  | .respond _ :: t, b => serialChk t b

/-- Number of Connection-level send invocations in a trace. -/
def countSends (t : List Tr) : Nat :=
  t.countP (fun e => match e with | .sendStart => true | _ => false)

/-! ### The lifecycle of `Client.run` / `Client.lifecycle` as a step function

The phases are the spec's lifecycle states as realised by the control
flow of `Client.run`: `connecting` is the dial at the top of
`Client.lifecycle`; `serving` is `Client.loop` running on a live
connection; `backoff` is the `select` after `lifecycle` returned a
non-cancellation error; `closed` is the terminal return of `run`. -/

/-- Lifecycle phase. -/
inductive Phase where
  | connecting
  | serving
  | backoff
  | closed
  deriving Repr, DecidableEq

/-- A caller-visible response error: `notConnected` is `errNotConnected`;
`opFailed e` is the error of the command that the request executed. -/
inductive RErr where
  | notConnected
  | opFailed (e : NutErr)
  deriving Repr, DecidableEq

/-- The dynamically-typed `v any` field of `cmdResponse`: `nil` when the
response carries no value (as in the `errNotConnected` response of
`Client.run`), or a string produced by `runGet`. -/
inductive GoVal where
  | nil
  | str (s : String)
  deriving Repr, DecidableEq

/-- Mirrors `cmdResponse`. -/
structure CmdResponse where
  v : GoVal
  err : Option RErr
  deriving Repr, DecidableEq

/-- An observable effect of one lifecycle step: the `ConnectedFn` or
`DisconnectedFn` callback firing, or a `cmdResponse` delivered on
`responseChan` to the caller of the pending request. -/
inductive Out where
  | connectedFn
  | disconnectedFn
  | respond (r : CmdResponse)
  deriving Repr, DecidableEq

/-- An event the lifecycle can react to in its current phase: the outcome
of the dial, a caller `GET` request (carrying the request's argument
string and, for a request executed against the socket, the reply lines
the server delivers), a keep-alive tick with the outcome of its no-op
command, the reconnect-interval timer firing, or the shutdown signal. -/
inductive Ev where
  | dialOk
  | dialErr
  | request (v : String) (input : List String)
  | keepAlive (ok : Bool)
  | intervalElapsed
  | shutdown
  deriving Repr, DecidableEq

/-- One step of the lifecycle, mirroring `Client.run`, `Client.lifecycle`
and `Client.loop`. `none` means the event has no channel to arrive on in
that phase. The arms:
- `connecting`: a successful dial fires `ConnectedFn` and enters the
  serving loop; a failed dial falls to the backoff `select`; a shutdown
  cancels the dial and `run` returns.
- `serving`, request: `runCommand` executes `runGet`; the response is sent
  to the caller, and a non-nil error then makes `loop` return, so
  `lifecycle` fires `DisconnectedFn` and `run` falls to backoff. On
  success the loop continues serving.
- `serving`, keep-alive: a failed no-op command likewise ends the loop
  (no caller is waiting, so nothing is responded).
- `serving`, shutdown: `loop` returns `context.Canceled`; no
  `DisconnectedFn`, and `run` returns.
- `backoff`: the interval timer ends the wait and the next iteration
  dials; a caller request is answered immediately with the
  `errNotConnected` response (the `v` field left nil) and the `select`
  also ends, so the next iteration dials; shutdown makes `run` return. -/
def lifecycleStep : Phase → Ev → Option (Phase × List Out)
  | .connecting, .dialOk => some (.serving, [.connectedFn])
  | .connecting, .dialErr => some (.backoff, [])
  | .connecting, .shutdown => some (.closed, [])
  | .serving, .request v input =>
    match runGet v input with
    | .ok s => some (.serving, [.respond ⟨.str s, none⟩])
    | .error e => some (.backoff, [.respond ⟨.str "", some (.opFailed e)⟩, .disconnectedFn])
  | .serving, .keepAlive true => some (.serving, [])
  | .serving, .keepAlive false => some (.backoff, [.disconnectedFn])
  | .serving, .shutdown => some (.closed, [])
  | .backoff, .intervalElapsed => some (.connecting, [])
  | .backoff, .request _ _ => some (.connecting, [.respond ⟨.nil, some .notConnected⟩])
  | .backoff, .shutdown => some (.closed, [])
  | _, _ => none

/-- The Go type assertion `r.v.(string)` in `Client.Get`: it yields the
string when `v` holds one and panics (`none`) when `v` is the nil
interface. -/
def assertString : GoVal → Option String
  | .nil => none
  | .str s => some s

/-- Mirrors the tail of `Client.Get`: `return r.v.(string), r.err`. The
result is `none` when the type assertion panics, otherwise the pair the
caller receives. -/
def clientGet (r : CmdResponse) : Option (String × Option RErr) :=
  (assertString r.v).map (fun s => (s, r.err))

end Nutclient

namespace Nutclient

/-- Helper: `send` on a reply line of at least two tokens whose first token
lower-cases to `err` returns the server-error with the second token. -/
lemma send_err_of (cmd v line : String) (rest ps t : List String) (a b : String)
    (hv : parseLine v = .ok ps) (hl : parseLine line = .ok (a :: b :: t))
    (ha : lower a = "err") :
    send cmd v (line :: rest) = .error (.serverErr b) := by
  simp [send, hv, hl, classifyReply, ha, Bind.bind, Except.bind]

/-- Helper: `send` on a reply line that is not classified as a server
error returns the parsed prefixes and the reply tokens. -/
lemma send_ok_of (cmd v line : String) (rest ps l : List String)
    (hv : parseLine v = .ok ps) (hl : parseLine line = .ok l)
    (hcl : classifyReply l = none) :
    send cmd v (line :: rest) = .ok ((ps, l), rest) := by
  simp [send, hv, hl, hcl, Bind.bind, Except.bind]

/-- C4: parsing the empty list reply consisting of the line
`BEGIN LIST ups` immediately followed by the line `END LIST ups`
succeeds and yields the empty ordered sequence of rows, not an error. -/
theorem runList_empty_reply :
    runList "ups" ["BEGIN LIST ups", "END LIST ups"] = .ok [] := by decide

/-- C5: under the tokenizer's "no further input" condition (`atEOF` set),
the input line `a "b c" d` tokenizes to exactly the three tokens `a`,
`b c`, `d` with the quote characters not part of any token, and the input
`a "b` yields the token `a` followed by the unterminated-quote error (the
`true` flag of `tokenize`). -/
theorem tokenize_quoted_and_unterminated :
    tokenize "a \"b c\" d" = (["a", "b c", "d"], false) ∧
    tokenize "a \"b" = (["a"], true) := by decide

/-- C6: round-trip — encoding the list reply with rows
`[[k1, v1], [k2, v2]]` under prefix `ups` (the encoder modelled from the
spec, the server side being absent from the client source) and parsing it
back with `runList` yields exactly the same rows in the same order. -/
theorem runList_encode_roundtrip :
    runList "ups" (encodeList ["ups"] [["k1", "v1"], ["k2", "v2"]]) =
      .ok [["k1", "v1"], ["k2", "v2"]] := by decide

/-- C7 counterexample: the reply line that is exactly `ERR` (first token
case-insensitively `ERR`, no reason tokens) is not signalled as a server
error — `send` returns it as an ordinary successful reply — and for a
line with several reason tokens the reason carried is the second token
only, not all remaining tokens. -/
theorem send_bare_err_counterexample :
    send "GET" "x" ["ERR"] = .ok ((["x"], ["ERR"]), []) ∧
    send "GET" "x" ["ERR ACCESS-DENIED extra"] = .error (.serverErr "ACCESS-DENIED") := by
  decide

/-- C7 (amended): a reply line with at least two tokens whose first token
case-insensitively equals `ERR` makes `send` signal the server error whose
reason is the second token; a reply line consisting of the single token
`ERR` is not treated as an error and is returned as an ordinary reply. -/
theorem send_err_reply_classification :
    (∀ (cmd v line : String) (rest ps t : List String) (a b : String),
      parseLine v = .ok ps → parseLine line = .ok (a :: b :: t) → lower a = "err" →
      send cmd v (line :: rest) = .error (.serverErr b)) ∧
    (∀ (cmd v line : String) (rest ps : List String) (a : String),
      parseLine v = .ok ps → parseLine line = .ok [a] →
      send cmd v (line :: rest) = .ok ((ps, [a]), rest)) := by
  constructor
  · intro cmd v line rest ps t a b hv hl ha
    exact send_err_of cmd v line rest ps t a b hv hl ha
  · intro cmd v line rest ps a hv hl
    exact send_ok_of cmd v line rest ps [a] hv hl rfl

/-- Witness for C7's amended theorem at concrete inputs. -/
theorem send_err_reply_classification_witness :
    (parseLine "x" = .ok ["x"] ∧
      parseLine "ERR DATA-STALE trailing" = .ok ["ERR", "DATA-STALE", "trailing"] ∧
      lower "ERR" = "err" ∧
      send "GET" "x" ["ERR DATA-STALE trailing"] = .error (.serverErr "DATA-STALE")) ∧
    (parseLine "ERR" = .ok ["ERR"] ∧
      send "LIST" "x" ["ERR"] = .ok ((["x"], ["ERR"]), [])) :=
  ⟨⟨by decide, by decide, by decide,
      send_err_reply_classification.1 "GET" "x" "ERR DATA-STALE trailing" [] ["x"]
        ["trailing"] "ERR" "DATA-STALE" (by decide) (by decide) (by decide)⟩,
    ⟨by decide,
      send_err_reply_classification.2 "LIST" "x" "ERR" [] ["x"] "ERR"
        (by decide) (by decide)⟩⟩

/-- C1 counterexample: a request whose reply line is `ERR ACCESS-DENIED`
does not leave the serving loop running — the step from `serving` lands in
`backoff` (so a reconnect is driven) and the `DisconnectedFn` notification
fires, the error also being delivered to the triggering caller. -/
theorem serving_err_reply_counterexample :
    lifecycleStep .serving (.request "VAR ups ups.status" ["ERR ACCESS-DENIED"]) =
      some (.backoff,
        [.respond ⟨.str "", some (.opFailed (.serverErr "ACCESS-DENIED"))⟩,
          .disconnectedFn]) := by decide

/-- C1 (amended): a server `ERR` reply to a caller request is returned to
the triggering caller, but it is also fatal to the Connection: the serving
loop returns the error, the disconnected notification fires, and the
lifecycle falls to `backoff`, driving a reconnect. -/
theorem serving_err_reply_is_fatal (v line : String) (rest ps t : List String)
    (a b : String) (hv : parseLine v = .ok ps)
    (hl : parseLine line = .ok (a :: b :: t)) (ha : lower a = "err") :
    lifecycleStep .serving (.request v (line :: rest)) =
      some (.backoff,
        [.respond ⟨.str "", some (.opFailed (.serverErr b))⟩, .disconnectedFn]) := by
  have hs := send_err_of "GET" v line rest ps t a b hv hl ha
  simp [lifecycleStep, runGet, hs, Bind.bind, Except.bind]

/-- Witness for C1's amended theorem at concrete inputs. -/
theorem serving_err_reply_is_fatal_witness :
    parseLine "VAR ups ups.status" = .ok ["VAR", "ups", "ups.status"] ∧
    parseLine "ERR UNKNOWN-UPS" = .ok ["ERR", "UNKNOWN-UPS"] ∧
    lower "ERR" = "err" ∧
    lifecycleStep .serving (.request "VAR ups ups.status" ["ERR UNKNOWN-UPS"]) =
      some (.backoff,
        [.respond ⟨.str "", some (.opFailed (.serverErr "UNKNOWN-UPS"))⟩,
          .disconnectedFn]) :=
  ⟨by decide, by decide, by decide,
    serving_err_reply_is_fatal "VAR ups ups.status" "ERR UNKNOWN-UPS" []
      ["VAR", "ups", "ups.status"] [] "ERR" "UNKNOWN-UPS"
      (by decide) (by decide) (by decide)⟩

/-- C2 (code bug): a caller request arriving in `backoff` is answered
immediately — the step delivers the `errNotConnected` response in the same
step, never queueing it — but the response carries the nil `v` field, and
`Client.Get`'s type assertion `r.v.(string)` on that nil interface panics
(`clientGet` is `none`) instead of returning `errNotConnected` as the
operation's error return value. -/
theorem backoff_request_get_panics :
    lifecycleStep .backoff (.request "VAR ups ups.status" []) =
      some (.connecting, [.respond ⟨.nil, some .notConnected⟩]) ∧
    clientGet ⟨.nil, some .notConnected⟩ = none := by decide

/-- C9 counterexample: the arrival of a caller request while the lifecycle
is in `backoff` ends the backoff wait early — after answering the caller
with `errNotConnected`, the next phase is `connecting`, i.e. a new dial
attempt is made before the reconnect interval has elapsed. -/
theorem backoff_request_redials_counterexample :
    lifecycleStep .backoff (.request "VAR ups battery.charge" []) =
      some (.connecting, [.respond ⟨.nil, some .notConnected⟩]) := by decide

/-- C9 (amended): `backoff` is left in exactly three ways — to
`connecting` when the reconnect interval elapses, to `connecting`
immediately when a caller request arrives (the request being answered with
`errNotConnected`), and to `closed` when the shutdown signal arrives. -/
theorem backoff_exit_characterization (e : Ev) (r : Phase × List Out)
    (h : lifecycleStep .backoff e = some r) :
    (e = .intervalElapsed ∧ r = (.connecting, [])) ∨
    (∃ v input, e = .request v input ∧
      r = (.connecting, [.respond ⟨.nil, some .notConnected⟩])) ∨
    (e = .shutdown ∧ r = (.closed, [])) := by
  cases e with
  | dialOk => simp [lifecycleStep] at h
  | dialErr => simp [lifecycleStep] at h
  | request v input =>
    simp only [lifecycleStep, Option.some.injEq] at h
    exact Or.inr (Or.inl ⟨v, input, rfl, h.symm⟩)
  | keepAlive ok => simp [lifecycleStep] at h
  | intervalElapsed =>
    simp only [lifecycleStep, Option.some.injEq] at h
    exact Or.inl ⟨rfl, h.symm⟩
  | shutdown =>
    simp only [lifecycleStep, Option.some.injEq] at h
    exact Or.inr (Or.inr ⟨rfl, h.symm⟩)

/-- Witness for C9's amended theorem at the interval-elapsed event. -/
theorem backoff_exit_characterization_witness :
    lifecycleStep .backoff .intervalElapsed = some (.connecting, []) ∧
    ((Ev.intervalElapsed = Ev.intervalElapsed ∧
        (Phase.connecting, ([] : List Out)) = (Phase.connecting, [])) ∨
      (∃ v input, Ev.intervalElapsed = Ev.request v input ∧
        (Phase.connecting, ([] : List Out)) =
          (Phase.connecting, [Out.respond ⟨.nil, some .notConnected⟩])) ∨
      (Ev.intervalElapsed = Ev.shutdown ∧
        (Phase.connecting, ([] : List Out)) = (Phase.closed, []))) :=
  ⟨rfl, backoff_exit_characterization .intervalElapsed (.connecting, []) rfl⟩

/-- C8: on a scalar (`GET`) reply line, `runGet` strips the echoed prefix
tokens by case-insensitive comparison and returns the first remaining
token; a prefix mismatch (or a reply shorter than the prefix) fails with
the error naming the expected prefix sequence, and an empty remainder
fails with `errMissingValue`. -/
theorem runGet_strip_and_value (v line : String) (rest ps l : List String)
    (hv : parseLine v = .ok ps) (hl : parseLine line = .ok l)
    (hcl : classifyReply l = none) :
    runGet v (line :: rest) =
      (match trimPrefixAux l ps with
        | none => .error (.prefixExpected ps)
        | some [] => .error .missingValue
        | some (x :: _) => .ok x) := by
  have hs := send_ok_of "GET" v line rest ps l hv hl hcl
  cases h : trimPrefixAux l ps with
  | none => simp [runGet, hs, trimPrefix, h, Bind.bind, Except.bind]
  | some r => cases r <;> simp [runGet, hs, trimPrefix, h, Bind.bind, Except.bind]

/-- Witness for C8 at a concrete reply whose echoed prefix differs in
case from the sent arguments. -/
theorem runGet_strip_and_value_witness :
    parseLine "VAR ups ups.status" = .ok ["VAR", "ups", "ups.status"] ∧
    parseLine "var UPS ups.status \"OL\"" = .ok ["var", "UPS", "ups.status", "OL"] ∧
    classifyReply ["var", "UPS", "ups.status", "OL"] = none ∧
    runGet "VAR ups ups.status" ["var UPS ups.status \"OL\""] = .ok "OL" := by
  refine ⟨by decide, by decide, by decide, ?_⟩
  have h := runGet_strip_and_value "VAR ups ups.status" "var UPS ups.status \"OL\"" []
    ["VAR", "ups", "ups.status"] ["var", "UPS", "ups.status", "OL"]
    (by decide) (by decide) (by decide)
  rw [h]
  decide

/-- C3: mutual exclusion of Connection-level sends is structural in the
serving loop — on every sequence of select events the instrumented trace
is serial (no send starts before the previous one has ended, whether for
a caller request or the keep-alive timer, and each request's response is
delivered inside its turn), and a sequence of N successful caller
requests produces exactly N send invocations. -/
theorem loop_at_most_one_in_flight :
    (∀ evs : List LoopEv, serialChk (loopTrace evs) false = true) ∧
    (∀ ids : List Nat,
      countSends (loopTrace (ids.map (fun i => LoopEv.request i true))) = ids.length) := by
  constructor
  · intro evs
    induction evs with
    | nil => rfl
    | cons e rest ih =>
      cases e with
      | request i ok => cases ok <;> simp [loopTrace, serialChk, ih]
      | keepAlive ok => cases ok <;> simp [loopTrace, serialChk, ih]
      | shutdown => rfl
  · intro ids
    induction ids with
    | nil => rfl
    | cons i rest ih =>
      simp [loopTrace, countSends, List.countP_cons, ih] at ih ⊢
      omega

/-- Helper: the loop of the default status evaluation returns `true`
exactly when no field equals `OL`. -/
lemma evaluateStatusLoop_eq_not_contains (ls : List String) :
    evaluateStatusLoop ls = !(ls.contains "OL") := by
  induction ls with
  | nil => rfl
  | cons p ps ih =>
    simp only [evaluateStatusLoop, List.contains_cons]
    by_cases h : p = "OL"
    · have h1 : (p == "OL") = true := by simpa using h
      have h2 : ("OL" == p) = true := by simpa using h.symm
      simp [h1, h2]
    · have h1 : (p == "OL") = false := by simpa using h
      have h2 : ("OL" == p) = false := by simpa using (Ne.symm h)
      simp [h1, h2, ih]

/-- C10: with the `EvaluateStatusFn` callback unset, the default status
evaluation reports on-battery exactly when no field of the raw status
string split on single spaces equals `OL`; in particular the empty status
string is on-battery, a field such as `OLX` does not count, a status
separated by a tab instead of a space does not count, and a status with
an `OL` field is not on-battery. -/
theorem default_evaluate_status :
    (∀ v : String,
      runEvaluateStatusFn ⟨none⟩ v = !((stringsSplitSpace v).contains "OL")) ∧
    runEvaluateStatusFn ⟨none⟩ "" = true ∧
    runEvaluateStatusFn ⟨none⟩ "OLX" = true ∧
    runEvaluateStatusFn ⟨none⟩ "OL\tOB" = true ∧
    runEvaluateStatusFn ⟨none⟩ "OB OL CHRG" = false := by
  refine ⟨?_, by decide, by decide, by decide, by decide⟩
  intro v
  simpa [runEvaluateStatusFn] using
    evaluateStatusLoop_eq_not_contains (stringsSplitSpace v)

end Nutclient
